import Mathlib

/-!
MarketMingle server: access guard, query compilation and repository handlers.

A shallow embedding of `src/index.js`.  Every handler of the Express
application is a pure function of the request (and, where the claim needs it,
of the collection contents); what a handler does to the outside world is
returned as data: the events of the access guard, the operations issued to a
collection, and how the handler ended (a response was sent, or an exception
escaped it).

Conventions.

* `req.query`, `req.cookies` are mappings from names to strings; a missing
  name is JavaScript `undefined`, rendered here as `none`.
* JavaScript truthiness of such a value is `truthy`: `undefined` and the empty
  string are falsy, every other string is truthy.
* Request bodies and stored documents are flat field bags `Doc`.
-/

namespace MarketMingle

/-! ## Values and documents -/

/-- Scalar JSON values carried by request bodies and stored documents. -/
inductive JVal where
  | null
  | bool (b : Bool)
  | num (n : Int)
  | str (s : String)
  deriving DecidableEq, Repr

/-- A document or request body: an ordered bag of named fields. -/
abbrev Doc := List (String × JVal)

/-- A mapping of raw string parameters (`req.query`, `req.cookies`). -/
abbrev Params := List (String × String)

/-- JavaScript truthiness of `m.key` for a string-valued mapping:
`undefined` and `""` are falsy. -/
def truthy : Option String → Bool
  | none => false
  | some s => s != ""

/-- The request object, restricted to the properties the handlers read. -/
structure Request where
  /-- Property `req.cookies`; `none` when the property is `undefined`. -/
  cookies : Option Params
  /-- Property `req.query`. -/
  query : Params
  /-- Property `req.params.id`. -/
  id : String
  /-- Property `req.body`. -/
  body : Doc
  /-- Property `req.user`; `none` until the guard attaches the decoded payload. -/
  user : Option Doc
  deriving DecidableEq, Repr

/-! ## Token middleware (`verifyToken`, lines 28-38) -/

/-- What the middleware does, in order. -/
inductive GuardEvent where
  /-- Call of `jsonwebtoken.verify(token, secret, callback)`. -/
  | verifierInvoked (token : String)
  /-- Response `res.status(code).send({ message })`. -/
  | responded (code : Nat) (message : String)
  /-- Call of `next()`, with the request as the next handler sees it. -/
  | nextInvoked (req : Request)
  deriving DecidableEq, Repr

/-- Expression `req.cookies?.token`. -/
def Request.token (req : Request) : Option String :=
  req.cookies.bind (fun cs => cs.lookup "token")

/-- The middleware `verifyToken`.  `verify` stands for
`jsonwebtoken.verify(token, process.env.ACCESS_TOKEN, cb)`: it hands the
callback either an error or the decoded payload. -/
def verifyToken (verify : String → Except String Doc) (req : Request) : List GuardEvent :=
  let token := req.token
  if !(truthy token) then [GuardEvent.responded 401 "No permission"]
  else
    match token with
    | none => []
    | some t =>
      GuardEvent.verifierInvoked t ::
        (match verify t with
         | Except.error _ => [GuardEvent.responded 401 "Unauthorized"]
         | Except.ok decoded => [GuardEvent.nextInvoked { req with user := some decoded }])

/-- The requests handed to `next()`, in order. -/
def nextCalls : List GuardEvent → List Request
  | [] => []
  | GuardEvent.nextInvoked r :: es => r :: nextCalls es
  | _ :: es => nextCalls es

/-- The tokens handed to the verifier, in order. -/
def verifierCalls : List GuardEvent → List String
  | [] => []
  | GuardEvent.verifierInvoked t :: es => t :: verifierCalls es
  | _ :: es => verifierCalls es

/-- The status codes of the responses sent, in order. -/
def responses : List GuardEvent → List Nat
  | [] => []
  | GuardEvent.responded c _ :: es => c :: responses es
  | _ :: es => responses es

/-- A route registered as `app.METHOD(path, verifyToken, handler)`: the handler
runs once for each call of `next()`; `handler` returns the repository
operations it issues. -/
def guardedRoute {Op : Type} (verify : String → Except String Doc)
    (handler : Request → List Op) (req : Request) : List GuardEvent × List Op :=
  let events := verifyToken verify req
  (events, (nextCalls events).flatMap handler)

/-! ## Query compilation of the guarded read routes -/

/-- The filter documents the job routes hand to `jobsCollection.find`. -/
inductive JobFilter where
  /-- Filter `{}`. -/
  | all
  /-- Filter `{ buyer_email: v }`. -/
  | buyerEmail (v : String)
  /-- Filter `{ category: v }`. -/
  | category (v : String)
  /-- Filter `{ job_title: { $regex: pattern, $options: options } }`. -/
  | titleRegex (pattern : String) (options : String)
  deriving DecidableEq, Repr

/-- The filter of `GET /market-jobs` (lines 96-100): three `if` statements in
sequence, each assigning `query` anew. -/
def marketJobsQuery (q : Params) : JobFilter :=
  let query := JobFilter.all
  let query := if truthy (q.lookup "email") then JobFilter.buyerEmail ((q.lookup "email").getD "") else query
  let query := if truthy (q.lookup "filter") then JobFilter.category ((q.lookup "filter").getD "") else query
  let query :=
    if truthy (q.lookup "search") then JobFilter.titleRegex ((q.lookup "search").getD "") "i" else query
  query

/-- The filter documents the bid listing route hands to `bidsCollection.find`. -/
inductive BidFilter where
  /-- Filter `{}`. -/
  | all
  /-- Filter `{ email: v }`: the bidder. -/
  | email (v : String)
  /-- Filter `{ buyer_email: v }`. -/
  | buyerEmail (v : String)
  deriving DecidableEq, Repr

/-- The filter of `GET /market-bids` (lines 112-115). -/
def marketBidsQuery (q : Params) : BidFilter :=
  let query := BidFilter.all
  let query := if truthy (q.lookup "email") then BidFilter.email ((q.lookup "email").getD "") else query
  let query :=
    if truthy (q.lookup "buyer_email") then BidFilter.buyerEmail ((q.lookup "buyer_email").getD "")
    else query
  query

/-! ## JavaScript numbers, as far as `+req.query.page` needs them

`+x` is `ToNumber(x)`: `undefined` gives `NaN`, a string goes through
`StringToNumber` (ECMA-262, 7.1.4.1.1).  Integer values are tracked exactly,
including the rounding of a decimal integer to the nearest double; literals
with a fraction or an exponent are recognised but their value is not tracked. -/

/-- A JavaScript number.  `int z` is the double whose value is the integer `z`
(the two zeros are identified); `untracked` is a number, possibly the result of
arithmetic on one, that this development does not determine. -/
inductive JSNumber where
  | nan
  | int (z : Int)
  | posInf
  | negInf
  | untracked
  deriving DecidableEq, Repr

/-- How many low bits have to go for `n` to fit in 53 bits. -/
def excessBits : Nat → Nat → Nat
  | 0, _ => 0
  | fuel + 1, n => if n < 2 ^ 53 then 0 else excessBits fuel (n / 2) + 1

/-- The double nearest to the natural number `n` (ties to even); `none` when
that is `Infinity`. -/
def roundNat (n : Nat) : Option Nat :=
  if n ≤ 2 ^ 53 then some n
  else if 2 ^ 1024 ≤ n then none
  else
    let e := excessBits 1024 n
    let q := n / 2 ^ e
    let r := n % 2 ^ e
    let half := 2 ^ (e - 1)
    let q := if half < r ∨ (r = half ∧ q % 2 = 1) then q + 1 else q
    if 2 ^ 1024 ≤ q * 2 ^ e then none else some (q * 2 ^ e)

/-- The double nearest to the integer `z`. -/
def roundInt : Int → JSNumber
  | Int.ofNat n =>
    match roundNat n with
    | some m => JSNumber.int m
    | none => JSNumber.posInf
  | Int.negSucc n =>
    match roundNat (n + 1) with
    | some m => JSNumber.int (-(m : Int))
    | none => JSNumber.negInf

/-- Unary minus. -/
def JSNumber.neg : JSNumber → JSNumber
  | JSNumber.nan => JSNumber.nan
  | JSNumber.int z => JSNumber.int (-z)
  | JSNumber.posInf => JSNumber.negInf
  | JSNumber.negInf => JSNumber.posInf
  | JSNumber.untracked => JSNumber.untracked

/-- The operator `*`.  `NaN` absorbs; the product of two integers is the exact
product rounded to a double; `Infinity * 0` is `NaN`. -/
def JSNumber.mul : JSNumber → JSNumber → JSNumber
  | JSNumber.nan, _ => JSNumber.nan
  | _, JSNumber.nan => JSNumber.nan
  | JSNumber.untracked, _ => JSNumber.untracked
  | _, JSNumber.untracked => JSNumber.untracked
  | JSNumber.int a, JSNumber.int b => roundInt (a * b)
  | JSNumber.int a, JSNumber.posInf =>
    if a = 0 then JSNumber.nan else if 0 < a then JSNumber.posInf else JSNumber.negInf
  | JSNumber.int a, JSNumber.negInf =>
    if a = 0 then JSNumber.nan else if 0 < a then JSNumber.negInf else JSNumber.posInf
  | JSNumber.posInf, JSNumber.int b =>
    if b = 0 then JSNumber.nan else if 0 < b then JSNumber.posInf else JSNumber.negInf
  | JSNumber.negInf, JSNumber.int b =>
    if b = 0 then JSNumber.nan else if 0 < b then JSNumber.negInf else JSNumber.posInf
  | JSNumber.posInf, JSNumber.posInf => JSNumber.posInf
  | JSNumber.posInf, JSNumber.negInf => JSNumber.negInf
  | JSNumber.negInf, JSNumber.posInf => JSNumber.negInf
  | JSNumber.negInf, JSNumber.negInf => JSNumber.posInf

/-- The characters of `StrWhiteSpaceChar`: white space and line terminators. -/
def isStrWhiteSpace (c : Char) : Bool :=
  let n := c.toNat
  n == 9 || n == 10 || n == 11 || n == 12 || n == 13 || n == 32 || n == 0xA0 || n == 0x1680
    || (0x2000 ≤ n && n ≤ 0x200A) || n == 0x2028 || n == 0x2029 || n == 0x202F || n == 0x205F
    || n == 0x3000 || n == 0xFEFF

/-- Drop leading and trailing white space. -/
def trimWhiteSpace (cs : List Char) : List Char :=
  ((cs.dropWhile isStrWhiteSpace).reverse.dropWhile isStrWhiteSpace).reverse

/-- The value of a digit character in bases up to sixteen. -/
def digitValue (c : Char) : Nat :=
  if c.isDigit then c.toNat - 48
  else if 97 ≤ c.toNat ∧ c.toNat ≤ 102 then c.toNat - 87
  else c.toNat - 55

/-- The value of a run of digits, most significant first. -/
def radixValue (base : Nat) (cs : List Char) : Nat :=
  cs.foldl (fun acc c => base * acc + digitValue c) 0

/-- A non-empty run of characters all satisfying `p`. -/
def isRun (p : Char → Bool) (cs : List Char) : Bool :=
  !cs.isEmpty && cs.all p

/-- A hexadecimal digit. -/
def isHexDigit (c : Char) : Bool :=
  c.isDigit || (97 ≤ c.toNat && c.toNat ≤ 102) || (65 ≤ c.toNat && c.toNat ≤ 70)

/-- Grammar `ExponentPart`, or nothing: `e`/`E`, an optional sign, a run of digits. -/
def isExponentPartOpt : List Char → Bool
  | [] => true
  | _ :: rest =>
    match rest with
    | [] => false
    | c :: ds => if c = '+' ∨ c = '-' then isRun Char.isDigit ds else isRun Char.isDigit rest

/-- The mantissa forms `digits`, `digits . digits?` and `. digits`. -/
def isMantissa (cs : List Char) : Bool :=
  let ip := cs.takeWhile (fun c => c != '.')
  match cs.dropWhile (fun c => c != '.') with
  | [] => isRun Char.isDigit ip
  | _ :: fp => ip.all Char.isDigit && fp.all Char.isDigit && !(ip.isEmpty && fp.isEmpty)

/-- Grammar `StrUnsignedDecimalLiteral`: its value, or `none` when the characters do
not form one. -/
def strUnsignedDecimalLiteral (cs : List Char) : Option JSNumber :=
  if cs = "Infinity".toList then some JSNumber.posInf
  else if isRun Char.isDigit cs then some (roundInt (radixValue 10 cs))
  else
    let isE := fun c : Char => c == 'e' || c == 'E'
    if isMantissa (cs.takeWhile (fun c => !isE c)) && isExponentPartOpt (cs.dropWhile (fun c => !isE c))
    then some JSNumber.untracked
    else none

/-- Grammar `NonDecimalIntegerLiteral` with the given prefix letter and digit class. -/
def nonDecimalLiteral (lower upper : Char) (base : Nat) (p : Char → Bool) (cs : List Char) :
    Option JSNumber :=
  match cs with
  | z :: x :: ds =>
    if z = '0' ∧ (x = lower ∨ x = upper) ∧ isRun p ds then some (roundInt (radixValue base ds))
    else none
  | _ => none

/-- Grammar `StrNumericLiteral`: a signed decimal literal, or an unsigned binary, octal
or hexadecimal integer literal. -/
def strNumericLiteral (cs : List Char) : Option JSNumber :=
  ((nonDecimalLiteral 'x' 'X' 16 isHexDigit cs).orElse fun _ =>
    (nonDecimalLiteral 'o' 'O' 8 (fun c => '0' ≤ c && c ≤ '7') cs).orElse fun _ =>
      nonDecimalLiteral 'b' 'B' 2 (fun c => c == '0' || c == '1') cs).orElse fun _ =>
  match cs with
  | s :: rest =>
    if s = '+' then strUnsignedDecimalLiteral rest
    else if s = '-' then (strUnsignedDecimalLiteral rest).map JSNumber.neg
    else strUnsignedDecimalLiteral cs
  | [] => none

/-- Operation `StringToNumber`: the empty or all-white-space string is `0`, a numeric
literal surrounded by white space is its value, anything else is `NaN`. -/
def stringToNumber (s : String) : JSNumber :=
  let cs := trimWhiteSpace s.toList
  if cs.isEmpty then JSNumber.int 0 else (strNumericLiteral cs).getD JSNumber.nan

/-- The unary `+` applied to `req.query.name`. -/
def toNumber : Option String → JSNumber
  | none => JSNumber.nan
  | some s => stringToNumber s

/-- Whether `req.query.name` is `undefined` or a string that is neither blank
nor a numeric literal surrounded by white space. -/
def notNumeric : Option String → Bool
  | none => true
  | some s =>
    let cs := trimWhiteSpace s.toList
    !cs.isEmpty && (strNumericLiteral cs).isNone

/-! ## The public listing route (`GET /all-jobs`, lines 120-135) -/

/-- The filter document of the listing:
`{ job_title: { $regex: search, $options: "i" } }`, with `category` added when
`req.query.filter` is truthy. -/
structure ListingFilter where
  /-- Field `$regex`: `req.query.search`, `undefined` when absent. -/
  regex : Option String
  /-- Field `$options`. -/
  options : String
  /-- Field `category`, when set. -/
  category : Option String
  deriving DecidableEq, Repr

/-- What the handler hands to `find(query, options).skip(..).limit(..)`. -/
structure ListingPlan where
  /-- The first argument of `find`. -/
  query : ListingFilter
  /-- Field `options.sort.deadline` (`1` or `-1`), `none` when `options` is `{}`. -/
  sortDeadline : Option Int
  /-- The argument of `skip`. -/
  skip : JSNumber
  /-- The argument of `limit`. -/
  limit : JSNumber
  deriving DecidableEq, Repr

/-- The compilation done by the `GET /all-jobs` handler. -/
def allJobs (q : Params) : ListingPlan :=
  let search := q.lookup "search"
  let sort := q.lookup "sort"
  let page := toNumber (q.lookup "page")
  let number := toNumber (q.lookup "number")
  let query : ListingFilter := { regex := search, options := "i", category := none }
  let query := if truthy (q.lookup "filter") then { query with category := q.lookup "filter" } else query
  let options : Option Int := none
  let options := if truthy sort then some (if sort = some "Asc" then 1 else -1) else options
  { query := query, sortDeadline := options, skip := number.mul page, limit := number }

/-! ## Repository handlers

A handler's run is the list of operations it issued to its collection and the
way it ended.  Every operation that reaches a collection is taken to complete;
failures of the store itself are outside this development. -/

/-- An `ObjectId`, by its hexadecimal rendering. -/
structure ObjectId where
  /-- The 24 hexadecimal characters. -/
  hex : String
  deriving DecidableEq, Repr

/-- The constructor `new ObjectId(s)` of the `bson` package for a string
argument, as of `bson` 6: a 24-character hexadecimal string is accepted, any
other string makes the constructor throw.  (Earlier releases also accept every
12-character string; the handlers below take the constructor as a parameter, so
what is proved about them does not depend on the release.) -/
def ObjectId.ofString (s : String) : Except String ObjectId :=
  if s.length = 24 ∧ s.toList.all isHexDigit then Except.ok { hex := s }
  else Except.error "BSONError: input must be a 24 character hex string, 12 byte Uint8Array, or an integer"

/-- How an `async` handler ends. -/
inductive Ending where
  /-- Response `res.send(result)`: the collection's result is sent as the response. -/
  | sentResult
  /-- Response `res.status(code).send(text)`. -/
  | sent (code : Nat) (text : String)
  /-- An exception left the handler (its promise rejects); the handler sent
  no response. -/
  | thrown (error : String)
  deriving DecidableEq, Repr

/-- The operations the handlers issue to `jobsCollection`. -/
inductive JobsOp where
  /-- Operation `findOne({ _id })`. -/
  | findOne (id : ObjectId)
  /-- Operation `deleteOne({ _id })`. -/
  | deleteOne (id : ObjectId)
  /-- Operation `updateOne({ _id }, { $set }, { upsert })`. -/
  | updateOne (id : ObjectId) (set : Doc) (upsert : Bool)
  deriving DecidableEq, Repr

/-- The run of a handler over `jobsCollection`. -/
structure JobsRun where
  /-- The collection operations, in order. -/
  ops : List JobsOp
  /-- How the handler ended. -/
  ending : Ending
  deriving DecidableEq, Repr

/-- The handler of `GET /market-jobs/:id` (lines 105-109); `newObjectId` is the
constructor `new ObjectId(..)`. -/
def getMarketJob (newObjectId : String → Except String ObjectId) (req : Request) : JobsRun :=
  match newObjectId req.id with
  | Except.error e => { ops := [], ending := Ending.thrown e }
  | Except.ok oid => { ops := [JobsOp.findOne oid], ending := Ending.sentResult }

/-- The handler of `DELETE /market-jobs/:id` (lines 157-161). -/
def deleteMarketJob (newObjectId : String → Except String ObjectId) (req : Request) : JobsRun :=
  match newObjectId req.id with
  | Except.error e => { ops := [], ending := Ending.thrown e }
  | Except.ok oid => { ops := [JobsOp.deleteOne oid], ending := Ending.sentResult }

/-- The rest pattern `const { _id, ...remaining } = body`. -/
def withoutId (body : Doc) : Doc :=
  body.filter (fun field => field.1 != "_id")

/-- The handler of `PUT /market-jobs/:id` (lines 165-176). -/
def putMarketJob (newObjectId : String → Except String ObjectId) (req : Request) : JobsRun :=
  match newObjectId req.id with
  | Except.error e => { ops := [], ending := Ending.thrown e }
  | Except.ok oid =>
    let remaining := withoutId req.body
    { ops := [JobsOp.updateOne oid remaining true], ending := Ending.sentResult }

/-! ### Bid creation (`POST /market-bids`, lines 139-148) -/

/-- The property access `doc.key` as the driver serialises it in a filter:
a missing field (`undefined`) is sent as `null`. -/
def field (doc : Doc) (key : String) : JVal :=
  (doc.lookup key).getD JVal.null

/-- Whether a stored bid matches the filter `{ email: bid.email, job_id: bid.job_id }`;
a `null` in the filter matches a missing or `null` field. -/
def sameBidder (bid stored : Doc) : Bool :=
  field stored "email" == field bid "email" && field stored "job_id" == field bid "job_id"

/-- The operations the handler issues to `bidsCollection`. -/
inductive BidsOp where
  /-- Operation `findOne({ email, job_id })`. -/
  | findOne (email jobId : JVal)
  /-- Operation `insertOne(doc)`. -/
  | insertOne (doc : Doc)
  deriving DecidableEq, Repr

/-- The run of the bid-creation handler: its operations, how it ended, and the
contents of the collection afterwards. -/
structure BidsRun where
  /-- The collection operations, in order. -/
  ops : List BidsOp
  /-- How the handler ended. -/
  ending : Ending
  /-- The bids collection after the run. -/
  store : List Doc
  deriving DecidableEq, Repr

/-- The handler of `POST /market-bids` over the collection contents `store`. -/
def postMarketBid (store : List Doc) (bid : Doc) : BidsRun :=
  let lookup := BidsOp.findOne (field bid "email") (field bid "job_id")
  match store.find? (sameBidder bid) with
  | some _ => { ops := [lookup], ending := Ending.sent 400 "You already applied", store := store }
  | none => { ops := [lookup, BidsOp.insertOne bid], ending := Ending.sentResult, store := store ++ [bid] }

/-! ## Sample inputs -/

/-- A request without cookies, used as the running example. -/
def anonymousRequest : Request :=
  { cookies := none, query := [], id := "", body := [], user := none }

/-- A request carrying the cookie `token=t1`. -/
def tokenRequest : Request :=
  { cookies := some [("token", "t1")], query := [], id := "", body := [], user := none }

/-- A request carrying the cookie `token=t2`. -/
def forgedTokenRequest : Request :=
  { cookies := some [("token", "t2")], query := [], id := "", body := [], user := none }

/-- A verifier that accepts exactly the token `t1`. -/
def sampleVerify (t : String) : Except String Doc :=
  if t = "t1" then Except.ok [("email", JVal.str "a@x.com")] else Except.error "JsonWebTokenError"

/-- The bid of the running example. -/
def sampleBid : Doc :=
  [("email", JVal.str "b@x.com"), ("job_id", JVal.str "J1")]

/-- A request for the job with path id `not-an-id`. -/
def malformedIdRequest : Request :=
  { cookies := none, query := [], id := "not-an-id",
    body := [("_id", JVal.str "x"), ("job_title", JVal.str "Logo")], user := none }

/-- A request for the job with a well-formed path id, whose body carries an
`_id` field among others. -/
def replaceRequest : Request :=
  { cookies := none, query := [], id := "65f1a2b3c4d5e6f708192a3b",
    body := [("_id", JVal.str "x"), ("job_title", JVal.str "Logo"), ("category", JVal.str "design")],
    user := none }

/-! ## The access guard -/

/-- A non-empty string is truthy. -/
theorem truthy_some_of_ne {s : String} (h : s ≠ "") : truthy (some s) = true := by
  simp [truthy, h]

/-- C1: a request whose `token` cookie is absent is answered with a single 401
response; the verifier is not called, `next()` is not called, and the route's
handler issues no repository operation. -/
theorem verifyToken_no_credential {Op : Type} (verify : String → Except String Doc)
    (handler : Request → List Op) (req : Request) (h : req.token = none) :
    verifyToken verify req = [GuardEvent.responded 401 "No permission"]
      ∧ responses (verifyToken verify req) = [401]
      ∧ verifierCalls (verifyToken verify req) = []
      ∧ nextCalls (verifyToken verify req) = []
      ∧ (guardedRoute verify handler req).2 = [] := by
  have hv : verifyToken verify req = [GuardEvent.responded 401 "No permission"] := by
    simp [verifyToken, h, truthy]
  simp [guardedRoute, hv, responses, verifierCalls, nextCalls]

/-- C1 at the request without cookies, with a handler that would issue one
operation. -/
theorem verifyToken_no_credential_witness :
    anonymousRequest.token = none
      ∧ verifyToken sampleVerify anonymousRequest = [GuardEvent.responded 401 "No permission"]
      ∧ responses (verifyToken sampleVerify anonymousRequest) = [401]
      ∧ verifierCalls (verifyToken sampleVerify anonymousRequest) = []
      ∧ nextCalls (verifyToken sampleVerify anonymousRequest) = []
      ∧ (guardedRoute sampleVerify (fun _ => [()]) anonymousRequest).2 = [] :=
  ⟨rfl, verifyToken_no_credential sampleVerify (fun _ => [()]) anonymousRequest rfl⟩

/-- C2: for every request and verifier, `next()` is called only when the
request presents a token that the verifier accepts, and the request handed on
carries the decoded payload as `req.user`.  When the request presents a
non-empty token and the verifier accepts it, the verifier is called once with
that token, `next()` is called exactly once with `req.user` set to the decoded
payload, and no response is sent.  When the verifier rejects the presented
token, the verifier is called once, the response is 401 and `next()` is not
called.  When no token is presented (absent or empty), the response is 401 and
neither the verifier nor `next()` is called. -/
theorem verifyToken_next_iff_accepted (verify : String → Except String Doc) (req : Request) :
    (∀ r ∈ nextCalls (verifyToken verify req), ∃ t d,
        req.token = some t ∧ t ≠ "" ∧ t ∈ verifierCalls (verifyToken verify req)
          ∧ verify t = Except.ok d ∧ r = { req with user := some d } ∧ r.user = some d)
      ∧ (∀ t d, req.token = some t → t ≠ "" → verify t = Except.ok d →
          verifyToken verify req
              = [GuardEvent.verifierInvoked t, GuardEvent.nextInvoked { req with user := some d }]
            ∧ verifierCalls (verifyToken verify req) = [t]
            ∧ nextCalls (verifyToken verify req) = [{ req with user := some d }]
            ∧ responses (verifyToken verify req) = [])
      ∧ (∀ t e, req.token = some t → t ≠ "" → verify t = Except.error e →
          verifyToken verify req
              = [GuardEvent.verifierInvoked t, GuardEvent.responded 401 "Unauthorized"]
            ∧ verifierCalls (verifyToken verify req) = [t]
            ∧ responses (verifyToken verify req) = [401]
            ∧ nextCalls (verifyToken verify req) = [])
      ∧ (truthy req.token = false →
          verifyToken verify req = [GuardEvent.responded 401 "No permission"]
            ∧ verifierCalls (verifyToken verify req) = []
            ∧ responses (verifyToken verify req) = [401]
            ∧ nextCalls (verifyToken verify req) = []) := by
  have hok : ∀ t d, req.token = some t → t ≠ "" → verify t = Except.ok d →
      verifyToken verify req
        = [GuardEvent.verifierInvoked t, GuardEvent.nextInvoked { req with user := some d }] := by
    intro t d htok hne hver
    simp [verifyToken, htok, truthy_some_of_ne hne, hver]
  have herr : ∀ t e, req.token = some t → t ≠ "" → verify t = Except.error e →
      verifyToken verify req
        = [GuardEvent.verifierInvoked t, GuardEvent.responded 401 "Unauthorized"] := by
    intro t e htok hne hver
    simp [verifyToken, htok, truthy_some_of_ne hne, hver]
  have hnone : truthy req.token = false →
      verifyToken verify req = [GuardEvent.responded 401 "No permission"] := by
    intro h
    simp [verifyToken, h]
  refine ⟨?_, ?_, ?_, ?_⟩
  · intro r hr
    by_cases htr : truthy req.token = false
    · rw [hnone htr] at hr
      simp [nextCalls] at hr
    · cases htok : req.token with
      | none => simp [htok, truthy] at htr
      | some t =>
        have hne : t ≠ "" := by
          intro h
          simp [htok, truthy, h] at htr
        cases hver : verify t with
        | error e =>
          rw [herr t e htok hne hver] at hr
          simp [nextCalls] at hr
        | ok d =>
          rw [hok t d htok hne hver] at hr ⊢
          simp only [nextCalls, List.mem_singleton] at hr
          refine ⟨t, d, rfl, hne, ?_, hver, hr, ?_⟩
          · simp [verifierCalls]
          · rw [hr]
  · intro t d htok hne hver
    rw [hok t d htok hne hver]
    simp [verifierCalls, nextCalls, responses]
  · intro t e htok hne hver
    rw [herr t e htok hne hver]
    simp [verifierCalls, nextCalls, responses]
  · intro h
    rw [hnone h]
    simp [verifierCalls, nextCalls, responses]

/-- C2 at a request whose token the verifier accepts (one verifier call, one
call of `next()` carrying the decoded payload, no response) and at a request
whose token it rejects (one verifier call, a 401, no `next()`). -/
theorem verifyToken_next_iff_accepted_witness :
    (verifyToken sampleVerify tokenRequest
          = [GuardEvent.verifierInvoked "t1",
              GuardEvent.nextInvoked
                { tokenRequest with user := some [("email", JVal.str "a@x.com")] }]
        ∧ verifierCalls (verifyToken sampleVerify tokenRequest) = ["t1"]
        ∧ nextCalls (verifyToken sampleVerify tokenRequest)
          = [{ tokenRequest with user := some [("email", JVal.str "a@x.com")] }]
        ∧ responses (verifyToken sampleVerify tokenRequest) = [])
      ∧ (verifyToken sampleVerify forgedTokenRequest
          = [GuardEvent.verifierInvoked "t2", GuardEvent.responded 401 "Unauthorized"]
        ∧ verifierCalls (verifyToken sampleVerify forgedTokenRequest) = ["t2"]
        ∧ responses (verifyToken sampleVerify forgedTokenRequest) = [401]
        ∧ nextCalls (verifyToken sampleVerify forgedTokenRequest) = []) :=
  ⟨(verifyToken_next_iff_accepted sampleVerify tokenRequest).2.1 "t1"
      [("email", JVal.str "a@x.com")] rfl (by decide) rfl,
    (verifyToken_next_iff_accepted sampleVerify forgedTokenRequest).2.2.1 "t2"
      "JsonWebTokenError" rfl (by decide) rfl⟩

/-! ## Precedence of the filter parameters -/

/-- C3, as stated, fails: with `email` and `filter` both given, the compiled
filter of `GET /market-jobs` is the category filter, not the buyer-email one. -/
theorem marketJobsQuery_email_filter :
    marketJobsQuery [("email", "a@x.com"), ("filter", "design")] = JobFilter.category "design"
      ∧ marketJobsQuery [("email", "a@x.com"), ("filter", "design")]
          ≠ JobFilter.buyerEmail "a@x.com" := by
  decide

/-- C3, amended: on `GET /market-jobs` the last of `email`, `filter`, `search`
that is given with a non-empty value decides the filter: a non-empty `search`
gives the case-insensitive title pattern; otherwise a non-empty `filter` gives
the category filter; otherwise a non-empty `email` gives the buyer-email
filter; otherwise the filter is empty. -/
theorem marketJobsQuery_last_wins (q : Params) :
    (∀ s, q.lookup "search" = some s → s ≠ "" → marketJobsQuery q = JobFilter.titleRegex s "i")
      ∧ (∀ f, truthy (q.lookup "search") = false → q.lookup "filter" = some f → f ≠ "" →
          marketJobsQuery q = JobFilter.category f)
      ∧ (∀ e, truthy (q.lookup "search") = false → truthy (q.lookup "filter") = false →
          q.lookup "email" = some e → e ≠ "" → marketJobsQuery q = JobFilter.buyerEmail e)
      ∧ (truthy (q.lookup "search") = false → truthy (q.lookup "filter") = false →
          truthy (q.lookup "email") = false → marketJobsQuery q = JobFilter.all) := by
  refine ⟨?_, ?_, ?_, ?_⟩
  · intro s hs hne
    simp [marketJobsQuery, hs, truthy_some_of_ne hne]
  · intro f h1 hf hne
    simp [marketJobsQuery, h1, hf, truthy_some_of_ne hne]
  · intro e h1 h2 he hne
    simp [marketJobsQuery, h1, h2, he, truthy_some_of_ne hne]
  · intro h1 h2 h3
    simp [marketJobsQuery, h1, h2, h3]

/-- C3, amended, at `email` and `filter` both given and no `search`: the
category filter. -/
theorem marketJobsQuery_last_wins_witness :
    marketJobsQuery [("email", "a@x.com"), ("filter", "design")] = JobFilter.category "design" :=
  (marketJobsQuery_last_wins [("email", "a@x.com"), ("filter", "design")]).2.1 "design"
    (by decide) (by decide) (by decide)

/-- C4, as stated, fails: with `email` and `buyer_email` both given, the
compiled filter of `GET /market-bids` is on the buyer email, not the bidder. -/
theorem marketBidsQuery_both :
    marketBidsQuery [("email", "b@x.com"), ("buyer_email", "a@x.com")]
        = BidFilter.buyerEmail "a@x.com"
      ∧ marketBidsQuery [("email", "b@x.com"), ("buyer_email", "a@x.com")]
          ≠ BidFilter.email "b@x.com" := by
  decide

/-- C4, amended: on `GET /market-bids` a non-empty `buyer_email` gives the
buyer-email filter; otherwise a non-empty `email` gives the bidder-email
filter; otherwise the filter is empty. -/
theorem marketBidsQuery_last_wins (q : Params) :
    (∀ b, q.lookup "buyer_email" = some b → b ≠ "" → marketBidsQuery q = BidFilter.buyerEmail b)
      ∧ (∀ e, truthy (q.lookup "buyer_email") = false → q.lookup "email" = some e → e ≠ "" →
          marketBidsQuery q = BidFilter.email e)
      ∧ (truthy (q.lookup "buyer_email") = false → truthy (q.lookup "email") = false →
          marketBidsQuery q = BidFilter.all) := by
  refine ⟨?_, ?_, ?_⟩
  · intro b hb hne
    simp [marketBidsQuery, hb, truthy_some_of_ne hne]
  · intro e h1 he hne
    simp [marketBidsQuery, h1, he, truthy_some_of_ne hne]
  · intro h1 h2
    simp [marketBidsQuery, h1, h2]

/-- C4, amended, at both parameters given: the buyer-email filter. -/
theorem marketBidsQuery_last_wins_witness :
    marketBidsQuery [("email", "b@x.com"), ("buyer_email", "a@x.com")]
      = BidFilter.buyerEmail "a@x.com" :=
  (marketBidsQuery_last_wins [("email", "b@x.com"), ("buyer_email", "a@x.com")]).1 "a@x.com"
    (by decide) (by decide)

/-! ## Bid creation -/

/-- A bid matches the filter built from itself. -/
theorem sameBidder_self (bid : Doc) : sameBidder bid bid = true := by
  simp [sameBidder]

/-- C5: if the collection holds a bid with the submitted bidder email and job
id, `POST /market-bids` answers 400 and writes nothing; otherwise it inserts
the bid.  Submitting a bid twice, starting without a matching bid, makes the
second submission fail and leaves exactly one matching record. -/
theorem postMarketBid_duplicate_guard (store : List Doc) (bid : Doc) :
    ((∃ d ∈ store, sameBidder bid d = true) →
        (postMarketBid store bid).ending = Ending.sent 400 "You already applied"
          ∧ (postMarketBid store bid).store = store
          ∧ (∀ d, BidsOp.insertOne d ∉ (postMarketBid store bid).ops))
      ∧ ((∀ d ∈ store, sameBidder bid d = false) →
          (postMarketBid store bid).ending = Ending.sentResult
            ∧ (postMarketBid store bid).store = store ++ [bid]
            ∧ BidsOp.insertOne bid ∈ (postMarketBid store bid).ops
            ∧ (postMarketBid (postMarketBid store bid).store bid).ending
                = Ending.sent 400 "You already applied"
            ∧ (postMarketBid (postMarketBid store bid).store bid).store = store ++ [bid]
            ∧ ((postMarketBid (postMarketBid store bid).store bid).store.filter
                (sameBidder bid)).length = 1) := by
  have hdup : ∀ st : List Doc, (∃ d ∈ st, sameBidder bid d = true) →
      postMarketBid st bid
        = { ops := [BidsOp.findOne (field bid "email") (field bid "job_id")],
            ending := Ending.sent 400 "You already applied", store := st } := by
    intro st hex
    cases hfind : st.find? (sameBidder bid) with
    | none =>
      obtain ⟨d, hd, hm⟩ := hex
      have := List.find?_eq_none.mp hfind d hd
      simp [hm] at this
    | some d => simp [postMarketBid, hfind]
  refine ⟨?_, ?_⟩
  · intro hex
    rw [hdup store hex]
    simp
  · intro hnone
    have hfind : store.find? (sameBidder bid) = none := by
      rw [List.find?_eq_none]
      intro d hd
      simp [hnone d hd]
    have hfirst : postMarketBid store bid
        = { ops := [BidsOp.findOne (field bid "email") (field bid "job_id"), BidsOp.insertOne bid],
            ending := Ending.sentResult, store := store ++ [bid] } := by
      simp [postMarketBid, hfind]
    have hfilter : store.filter (sameBidder bid) = [] := by
      rw [List.filter_eq_nil_iff]
      intro d hd
      simp [hnone d hd]
    rw [hfirst]
    simp only
    rw [hdup (store ++ [bid]) ⟨bid, by simp, sameBidder_self bid⟩]
    simp [List.filter_append, hfilter, sameBidder_self]

/-- C5 at the bid `{email: "b@x.com", job_id: "J1"}` submitted twice to an
empty collection. -/
theorem postMarketBid_duplicate_guard_witness :
    (postMarketBid [] sampleBid).ending = Ending.sentResult
      ∧ (postMarketBid [] sampleBid).store = [] ++ [sampleBid]
      ∧ BidsOp.insertOne sampleBid ∈ (postMarketBid [] sampleBid).ops
      ∧ (postMarketBid (postMarketBid [] sampleBid).store sampleBid).ending
          = Ending.sent 400 "You already applied"
      ∧ (postMarketBid (postMarketBid [] sampleBid).store sampleBid).store = [] ++ [sampleBid]
      ∧ ((postMarketBid (postMarketBid [] sampleBid).store sampleBid).store.filter
          (sameBidder sampleBid)).length = 1 :=
  (postMarketBid_duplicate_guard [] sampleBid).2 (by simp)

/-! ## Identifiers of job records -/

/-- C6, as stated, fails: for the path id `not-an-id` none of the three
handlers sends a response; the constructor's exception leaves the handler. -/
theorem malformed_id_escapes :
    (getMarketJob ObjectId.ofString malformedIdRequest).ending
        = Ending.thrown
            "BSONError: input must be a 24 character hex string, 12 byte Uint8Array, or an integer"
      ∧ (putMarketJob ObjectId.ofString malformedIdRequest).ending
        = Ending.thrown
            "BSONError: input must be a 24 character hex string, 12 byte Uint8Array, or an integer"
      ∧ (deleteMarketJob ObjectId.ofString malformedIdRequest).ending
        = Ending.thrown
            "BSONError: input must be a 24 character hex string, 12 byte Uint8Array, or an integer" := by
  decide

/-- C6, amended: for every path id that the `ObjectId` constructor rejects, the
handlers of `GET`, `PUT` and `DELETE /market-jobs/:id` issue no collection
operation and send no response: the constructor's exception leaves the
handler. -/
theorem malformed_id_no_store_op (newObjectId : String → Except String ObjectId) (req : Request)
    (e : String) (h : newObjectId req.id = Except.error e) :
    getMarketJob newObjectId req = { ops := [], ending := Ending.thrown e }
      ∧ putMarketJob newObjectId req = { ops := [], ending := Ending.thrown e }
      ∧ deleteMarketJob newObjectId req = { ops := [], ending := Ending.thrown e } := by
  simp [getMarketJob, putMarketJob, deleteMarketJob, h]

/-- C6, amended, at the path id `not-an-id`. -/
theorem malformed_id_no_store_op_witness :
    getMarketJob ObjectId.ofString malformedIdRequest
        = { ops := [], ending := Ending.thrown
              "BSONError: input must be a 24 character hex string, 12 byte Uint8Array, or an integer" }
      ∧ putMarketJob ObjectId.ofString malformedIdRequest
        = { ops := [], ending := Ending.thrown
              "BSONError: input must be a 24 character hex string, 12 byte Uint8Array, or an integer" }
      ∧ deleteMarketJob ObjectId.ofString malformedIdRequest
        = { ops := [], ending := Ending.thrown
              "BSONError: input must be a 24 character hex string, 12 byte Uint8Array, or an integer" } :=
  malformed_id_no_store_op ObjectId.ofString malformedIdRequest _ rfl

/-- C7: every operation `PUT /market-jobs/:id` issues is an `updateOne` that
selects by the `ObjectId` of the path id, has `upsert` set, and whose `$set`
document has no `_id` field and otherwise exactly the submitted fields with
their submitted values, in the submitted order; with an id the constructor
accepts, exactly one such operation is issued. -/
theorem putMarketJob_strips_id (newObjectId : String → Except String ObjectId) (req : Request) :
    (∀ op ∈ (putMarketJob newObjectId req).ops, ∃ oid set,
        newObjectId req.id = Except.ok oid ∧ op = JobsOp.updateOne oid set true
          ∧ (∀ v, ("_id", v) ∉ set)
          ∧ (∀ k v, (k, v) ∈ set ↔ ((k, v) ∈ req.body ∧ k ≠ "_id"))
          ∧ set.Sublist req.body)
      ∧ (∀ oid, newObjectId req.id = Except.ok oid →
          (putMarketJob newObjectId req).ops = [JobsOp.updateOne oid (withoutId req.body) true]
            ∧ (putMarketJob newObjectId req).ending = Ending.sentResult) := by
  have hset : (∀ v, ("_id", v) ∉ withoutId req.body)
      ∧ (∀ k v, (k, v) ∈ withoutId req.body ↔ ((k, v) ∈ req.body ∧ k ≠ "_id"))
      ∧ (withoutId req.body).Sublist req.body := by
    refine ⟨?_, ?_, ?_⟩
    · intro v
      simp [withoutId]
    · intro k v
      simp [withoutId]
    · exact List.filter_sublist _
  cases hid : newObjectId req.id with
  | error e => simp [putMarketJob, hid]
  | ok oid =>
    simp only [putMarketJob, hid]
    refine ⟨?_, ?_⟩
    · intro op hop
      simp only [List.mem_singleton] at hop
      exact ⟨oid, withoutId req.body, rfl, hop, hset⟩
    · intro oid2 h2
      cases h2
      simp

/-- C7 at a body carrying `_id`, `job_title` and `category`: the update sets
`job_title` and `category` only. -/
theorem putMarketJob_strips_id_witness :
    (putMarketJob ObjectId.ofString replaceRequest).ops
        = [JobsOp.updateOne { hex := "65f1a2b3c4d5e6f708192a3b" }
            [("job_title", JVal.str "Logo"), ("category", JVal.str "design")] true]
      ∧ (putMarketJob ObjectId.ofString replaceRequest).ending = Ending.sentResult :=
  (putMarketJob_strips_id ObjectId.ofString replaceRequest).2 _ rfl

/-! ## Sort toggle of the public listing -/

/-- C9, as stated, fails: a `sort` parameter that is present with the empty
value compiles to no sort specification, not to descending order. -/
theorem allJobs_sort_empty :
    (allJobs [("sort", "")]).sortDeadline = none
      ∧ (allJobs [("sort", "")]).sortDeadline ≠ some (-1) := by
  decide

/-- C9, amended: `sort` equal to `Asc` compiles to ascending deadline; any
other non-empty value compiles to descending deadline; an absent or empty
`sort` compiles to no sort specification; and the compiled sort depends on the
`sort` parameter alone. -/
theorem allJobs_sort (q : Params) :
    (q.lookup "sort" = some "Asc" → (allJobs q).sortDeadline = some 1)
      ∧ (∀ s, q.lookup "sort" = some s → s ≠ "" → s ≠ "Asc" →
          (allJobs q).sortDeadline = some (-1))
      ∧ (q.lookup "sort" = none ∨ q.lookup "sort" = some "" → (allJobs q).sortDeadline = none)
      ∧ (∀ q2 : Params, q2.lookup "sort" = q.lookup "sort" →
          (allJobs q2).sortDeadline = (allJobs q).sortDeadline) := by
  refine ⟨?_, ?_, ?_, ?_⟩
  · intro h
    simp [allJobs, h, truthy]
  · intro s h hne hasc
    simp [allJobs, h, truthy_some_of_ne hne, hasc]
  · intro h
    rcases h with h | h <;> simp [allJobs, h, truthy]
  · intro q2 h
    simp [allJobs, h]

/-- C9, amended, at `sort=Desc`: descending deadline. -/
theorem allJobs_sort_witness : (allJobs [("sort", "Desc")]).sortDeadline = some (-1) :=
  (allJobs_sort [("sort", "Desc")]).2.1 "Desc" (by decide) (by decide) (by decide)

/-! ## Decimal renderings and `StringToNumber` -/

/-- The decimal digit characters are digits, with the expected value. -/
theorem digitChar_spec (m : Nat) (h : m < 10) :
    (Nat.digitChar m).isDigit = true ∧ digitValue (Nat.digitChar m) = m := by
  interval_cases m <;> decide

/-- Appending one digit multiplies the value by the base and adds the digit. -/
theorem radixValue_concat (base : Nat) (cs : List Char) (c : Char) :
    radixValue base (cs ++ [c]) = base * radixValue base cs + digitValue c := by
  simp [radixValue, List.foldl_append]

/-- What `Nat.toDigitsCore` puts in front of its accumulator, given enough
fuel: a non-empty run of digits whose value is the number. -/
theorem toDigitsCore_run (fuel : Nat) :
    ∀ n acc, n < fuel → ∃ ds, Nat.toDigitsCore 10 fuel n acc = ds ++ acc ∧ ds ≠ []
      ∧ (∀ c ∈ ds, c.isDigit = true) ∧ radixValue 10 ds = n := by
  induction fuel with
  | zero => intro n acc h; omega
  | succ fuel ih =>
    intro n acc hlt
    unfold Nat.toDigitsCore
    by_cases hq : n / 10 = 0
    · have hn : n < 10 := by omega
      have hd := digitChar_spec (n % 10) (Nat.mod_lt _ (by norm_num))
      refine ⟨[Nat.digitChar (n % 10)], by simp [hq], by simp, ?_, ?_⟩
      · intro c hc
        rw [List.mem_singleton] at hc
        rw [hc]
        exact hd.1
      · simp [radixValue, hd.2]
        omega
    · obtain ⟨ds, hds, _, hall, hval⟩ := ih (n / 10) (Nat.digitChar (n % 10) :: acc) (by omega)
      have hd := digitChar_spec (n % 10) (Nat.mod_lt _ (by norm_num))
      refine ⟨ds ++ [Nat.digitChar (n % 10)], by simp [hq, hds], by simp, ?_, ?_⟩
      · intro c hc
        rcases List.mem_append.mp hc with h | h
        · exact hall c h
        · rw [List.mem_singleton] at h
          rw [h]
          exact hd.1
      · rw [radixValue_concat, hval, hd.2]
        omega

/-- The decimal rendering of a natural number is a non-empty run of digits
whose value is the number. -/
theorem toDigits_run (n : Nat) :
    Nat.toDigits 10 n ≠ [] ∧ (∀ c ∈ Nat.toDigits 10 n, c.isDigit = true)
      ∧ radixValue 10 (Nat.toDigits 10 n) = n := by
  obtain ⟨ds, hds, hne, hall, hval⟩ := toDigitsCore_run (n + 1) n [] (by omega)
  have : Nat.toDigits 10 n = ds := by simp [Nat.toDigits, hds]
  rw [this]
  exact ⟨hne, hall, hval⟩

/-- A digit is not white space. -/
theorem not_whiteSpace_of_isDigit (c : Char) (h : c.isDigit = true) : isStrWhiteSpace c = false := by
  have h1 : 48 ≤ c.toNat ∧ c.toNat ≤ 57 := by
    simp only [Char.isDigit, Bool.and_eq_true, decide_eq_true_eq] at h
    exact ⟨h.1, h.2⟩
  simp only [isStrWhiteSpace, Bool.or_eq_false_iff, beq_eq_false_iff_ne, Bool.and_eq_false_iff,
    decide_eq_false_iff_not]
  omega

/-- Trimming leaves a string alone that neither starts nor ends in white
space. -/
theorem trimWhiteSpace_eq_self (cs : List Char) (h : ∀ c ∈ cs, isStrWhiteSpace c = false) :
    trimWhiteSpace cs = cs := by
  have hdrop : ∀ l : List Char, (∀ c ∈ l, isStrWhiteSpace c = false) →
      l.dropWhile isStrWhiteSpace = l := by
    intro l hl
    cases l with
    | nil => rfl
    | cons c t => simp [List.dropWhile, hl c (by simp)]
  unfold trimWhiteSpace
  rw [hdrop cs h, hdrop cs.reverse (fun c hc => h c (List.mem_reverse.mp hc)), List.reverse_reverse]

/-- A literal with a radix prefix needs the prefix letter. -/
theorem nonDecimalLiteral_none (lower upper : Char) (base : Nat) (p : Char → Bool) (cs : List Char)
    (h : ∀ c ∈ cs, c ≠ lower ∧ c ≠ upper) : nonDecimalLiteral lower upper base p cs = none := by
  unfold nonDecimalLiteral
  split
  · rename_i z x ds
    have hx := h x (by simp)
    simp [hx.1, hx.2]
  · rfl

/-- A non-empty run of decimal digits is read as its value, rounded. -/
theorem strUnsignedDecimalLiteral_digits (ds : List Char) (hne : ds ≠ [])
    (hall : ∀ c ∈ ds, c.isDigit = true) :
    strUnsignedDecimalLiteral ds = some (roundInt (radixValue 10 ds)) := by
  have hinf : ds ≠ "Infinity".toList := by
    intro heq
    have := hall 'I' (by rw [heq]; decide)
    exact absurd this (by decide)
  have hrun : isRun Char.isDigit ds = true := by
    cases ds with
    | nil => exact absurd rfl hne
    | cons c t =>
      simp only [isRun, List.isEmpty_cons, Bool.not_false, Bool.true_and, List.all_eq_true]
      exact hall
  simp only [strUnsignedDecimalLiteral, hinf, hrun, if_false, if_true]

/-- Natural numbers up to `2 ^ 53` are doubles. -/
theorem roundNat_of_safe (n : Nat) (h : n ≤ 2 ^ 53) : roundNat n = some n := by
  unfold roundNat
  rw [if_pos h]

/-- Integers of magnitude at most `2 ^ 53` are doubles. -/
theorem roundInt_of_safe (z : Int) (h : z.natAbs ≤ 2 ^ 53) : roundInt z = JSNumber.int z := by
  cases z with
  | ofNat n =>
    have hn : n ≤ 2 ^ 53 := h
    simp only [roundInt, roundNat_of_safe n hn]
    rfl
  | negSucc n =>
    have hn : n + 1 ≤ 2 ^ 53 := h
    simp only [roundInt, roundNat_of_safe (n + 1) hn]
    rfl

/-- The characters of the rendering of a non-negative integer. -/
theorem toString_ofNat_toList (n : Nat) : (toString (Int.ofNat n)).toList = Nat.toDigits 10 n := by
  rfl

/-- The characters of the rendering of a negative integer. -/
theorem toString_negSucc_toList (n : Nat) :
    (toString (Int.negSucc n)).toList = '-' :: Nat.toDigits 10 (n + 1) := by
  show ("-" ++ toString (n + 1)).toList = _
  rw [String.toList, String.data_append]
  rfl

/-- A run of decimal digits, with or without a minus sign in front, has no
radix prefix. -/
theorem nonDecimal_none_of_digits (cs : List Char)
    (h : ∀ c ∈ cs, c.isDigit = true ∨ c = '-') :
    nonDecimalLiteral 'x' 'X' 16 isHexDigit cs = none
      ∧ nonDecimalLiteral 'o' 'O' 8 (fun c => '0' ≤ c && c ≤ '7') cs = none
      ∧ nonDecimalLiteral 'b' 'B' 2 (fun c => c == '0' || c == '1') cs = none := by
  have key : ∀ l : Char, l.isDigit = false → l ≠ '-' → ∀ c ∈ cs, c ≠ l := by
    intro l hl hm c hc heq
    rcases h c hc with h1 | h1
    · rw [heq, hl] at h1
      exact absurd h1 (by decide)
    · exact hm (heq ▸ h1)
  refine ⟨?_, ?_, ?_⟩
  · exact nonDecimalLiteral_none _ _ _ _ _ fun c hc =>
      ⟨key 'x' (by decide) (by decide) c hc, key 'X' (by decide) (by decide) c hc⟩
  · exact nonDecimalLiteral_none _ _ _ _ _ fun c hc =>
      ⟨key 'o' (by decide) (by decide) c hc, key 'O' (by decide) (by decide) c hc⟩
  · exact nonDecimalLiteral_none _ _ _ _ _ fun c hc =>
      ⟨key 'b' (by decide) (by decide) c hc, key 'B' (by decide) (by decide) c hc⟩

/-- Operation `StringToNumber` reads the decimal rendering of an integer of magnitude at
most `2 ^ 53` as that integer. -/
theorem stringToNumber_toString (z : Int) (h : z.natAbs ≤ 2 ^ 53) :
    stringToNumber (toString z) = JSNumber.int z := by
  cases z with
  | ofNat n =>
    obtain ⟨hne, hall, hval⟩ := toDigits_run n
    have htrim : trimWhiteSpace (Nat.toDigits 10 n) = Nat.toDigits 10 n :=
      trimWhiteSpace_eq_self _ fun c hc => not_whiteSpace_of_isDigit c (hall c hc)
    obtain ⟨hx, ho, hb⟩ := nonDecimal_none_of_digits (Nat.toDigits 10 n)
      fun c hc => Or.inl (hall c hc)
    have hlit : strNumericLiteral (Nat.toDigits 10 n) = some (roundInt n) := by
      unfold strNumericLiteral
      rw [hx, ho, hb]
      cases hds : Nat.toDigits 10 n with
      | nil => exact absurd hds hne
      | cons c t =>
        have hc : c.isDigit = true := hall c (by rw [hds]; simp)
        have hplus : c ≠ '+' := fun heq => absurd (heq ▸ hc) (by decide)
        have hminus : c ≠ '-' := fun heq => absurd (heq ▸ hc) (by decide)
        simp only [Option.orElse, hplus, hminus, if_false]
        rw [← hds, strUnsignedDecimalLiteral_digits _ hne hall, hval]
    unfold stringToNumber
    rw [toString_ofNat_toList]
    simp only [htrim, hlit, Option.getD]
    have hemp : (Nat.toDigits 10 n).isEmpty = false := by
      cases hds : Nat.toDigits 10 n with
      | nil => exact absurd hds hne
      | cons c t => rfl
    rw [hemp]
    exact roundInt_of_safe (Int.ofNat n) h
  | negSucc n =>
    obtain ⟨hne, hall, hval⟩ := toDigits_run (n + 1)
    have hmem : ∀ c ∈ '-' :: Nat.toDigits 10 (n + 1), c.isDigit = true ∨ c = '-' := by
      intro c hc
      rcases List.mem_cons.mp hc with h1 | h1
      · exact Or.inr h1
      · exact Or.inl (hall c h1)
    have htrim : trimWhiteSpace ('-' :: Nat.toDigits 10 (n + 1)) = '-' :: Nat.toDigits 10 (n + 1) := by
      apply trimWhiteSpace_eq_self
      intro c hc
      rcases hmem c hc with h1 | h1
      · exact not_whiteSpace_of_isDigit c h1
      · rw [h1]
        decide
    obtain ⟨hx, ho, hb⟩ := nonDecimal_none_of_digits _ hmem
    have hlit : strNumericLiteral ('-' :: Nat.toDigits 10 (n + 1))
        = some (JSNumber.neg (roundInt ((n + 1 : Nat) : Int))) := by
      unfold strNumericLiteral
      rw [hx, ho, hb]
      have hplus : '-' ≠ '+' := by decide
      simp only [Option.orElse, hplus, if_false, if_true]
      rw [strUnsignedDecimalLiteral_digits _ hne hall, hval]
      rfl
    have hpos : ((n + 1 : Nat) : Int).natAbs ≤ 2 ^ 53 := h
    unfold stringToNumber
    rw [toString_negSucc_toList]
    simp only [htrim, hlit, Option.getD, List.isEmpty_cons, roundInt_of_safe _ hpos]
    rfl

/-! ## Pagination window of the public listing -/

/-- C8, as stated, fails: the integer `9007199254740993` is not a JavaScript
number; `page=9007199254740993`, `number=1` skips `9007199254740992` records. -/
theorem allJobs_window_unsafe :
    (allJobs [("page", "9007199254740993"), ("number", "1")]).skip
        = JSNumber.int 9007199254740992
      ∧ (allJobs [("page", "9007199254740993"), ("number", "1")]).skip
        ≠ JSNumber.int (9007199254740993 * 1) := by
  decide!

/-- C8, amended: for integers `page` and `number` such that both and their
product have magnitude at most `2 ^ 53`, given in decimal, the window is
`skip = page * number` and `limit = number`. -/
theorem allJobs_window (q : Params) (page number : Int)
    (hp : q.lookup "page" = some (toString page))
    (hn : q.lookup "number" = some (toString number))
    (hpage : page.natAbs ≤ 2 ^ 53) (hnumber : number.natAbs ≤ 2 ^ 53)
    (hprod : (page * number).natAbs ≤ 2 ^ 53) :
    (allJobs q).skip = JSNumber.int (page * number)
      ∧ (allJobs q).limit = JSNumber.int number := by
  have h1 : toNumber (q.lookup "page") = JSNumber.int page := by
    rw [hp]
    exact stringToNumber_toString page hpage
  have h2 : toNumber (q.lookup "number") = JSNumber.int number := by
    rw [hn]
    exact stringToNumber_toString number hnumber
  have h3 : (JSNumber.int number).mul (JSNumber.int page) = JSNumber.int (page * number) := by
    show roundInt (number * page) = _
    rw [Int.mul_comm number page]
    exact roundInt_of_safe _ hprod
  simp only [allJobs, h1, h2, h3, and_self]

/-- C8, amended, at `page=1`, `number=5`: skip 5, limit 5. -/
theorem allJobs_window_witness :
    (allJobs [("page", "1"), ("number", "5")]).skip = JSNumber.int (1 * 5)
      ∧ (allJobs [("page", "1"), ("number", "5")]).limit = JSNumber.int 5 :=
  allJobs_window [("page", "1"), ("number", "5")] 1 5 rfl rfl (by decide) (by decide) (by decide)

/-- Trimming keeps a first character that is not white space. -/
theorem trimWhiteSpace_cons (c : Char) (rest : List Char) (h : isStrWhiteSpace c = false) :
    ∃ t, trimWhiteSpace (c :: rest) = c :: t := by
  have hsnoc : ∀ xs : List Char,
      (xs ++ [c]).dropWhile isStrWhiteSpace = xs.dropWhile isStrWhiteSpace ++ [c] := by
    intro xs
    induction xs with
    | nil => simp [List.dropWhile, h]
    | cons x xs ih =>
      by_cases hx : isStrWhiteSpace x = true
      · simp [List.dropWhile, hx, ih]
      · simp [List.dropWhile, hx]
  refine ⟨(rest.reverse.dropWhile isStrWhiteSpace).reverse, ?_⟩
  unfold trimWhiteSpace
  have : (c :: rest).dropWhile isStrWhiteSpace = c :: rest := by simp [List.dropWhile, h]
  rw [this, List.reverse_cons, hsnoc]
  simp

/-- The mantissa of a decimal literal does not start with a character that is
neither a digit nor the point. -/
theorem isMantissa_cons_false (c : Char) (t : List Char) (hd : c.isDigit = false) (hdot : c ≠ '.') :
    isMantissa (c :: t) = false := by
  have hne : (c != '.') = true := by simpa using hdot
  unfold isMantissa
  simp only [List.takeWhile_cons, List.dropWhile_cons, hne, if_true]
  split
  · simp [isRun, hd]
  · simp [hd]

/-- A string whose first character is not white space, a digit, a sign, the
point or `I` is not numeric. -/
theorem strNumericLiteral_none_of_head (c : Char) (t : List Char) (hd : c.isDigit = false)
    (hplus : c ≠ '+') (hminus : c ≠ '-') (hdot : c ≠ '.') (hI : c ≠ 'I') :
    strNumericLiteral (c :: t) = none := by
  have hzero : c ≠ '0' := fun heq => absurd (heq ▸ hd) (by decide)
  have hnd : ∀ l u b p, nonDecimalLiteral l u b p (c :: t) = none := by
    intro l u b p
    cases t with
    | nil => rfl
    | cons x ds => simp [nonDecimalLiteral, hzero]
  have hinf : c :: t ≠ "Infinity".toList := by
    intro heq
    have : c = 'I' := (List.cons.inj heq).1
    exact hI this
  have hdec : strUnsignedDecimalLiteral (c :: t) = none := by
    have hrun : isRun Char.isDigit (c :: t) = false := by simp [isRun, hd]
    have hmant : isMantissa ((c :: t).takeWhile (fun c => !(c == 'e' || c == 'E'))) = false := by
      rw [List.takeWhile_cons]
      split
      · exact isMantissa_cons_false c _ hd hdot
      · rfl
    unfold strUnsignedDecimalLiteral
    rw [if_neg hinf, hrun]
    simp only [hmant]
    simp
  unfold strNumericLiteral
  simp [hnd, Option.orElse, hplus, hminus, hdec]

/-- Value `NaN` absorbs on the left. -/
theorem JSNumber.nan_mul (x : JSNumber) : JSNumber.nan.mul x = JSNumber.nan := by
  cases x <;> rfl

/-- Value `NaN` absorbs on the right. -/
theorem JSNumber.mul_nan (x : JSNumber) : x.mul JSNumber.nan = JSNumber.nan := by
  cases x <;> rfl

/-- A parameter that is absent or not numeric is read as `NaN`. -/
theorem toNumber_of_notNumeric (v : Option String) (h : notNumeric v = true) :
    toNumber v = JSNumber.nan := by
  cases v with
  | none => rfl
  | some s =>
    simp only [notNumeric, Bool.and_eq_true, Bool.not_eq_true', Option.isNone_iff_eq_none] at h
    show stringToNumber s = _
    unfold stringToNumber
    simp only [h.1, h.2, Bool.false_eq_true, if_false, Option.getD_none]

/-- C10, as stated, fails: with `page` and `number` absent the window is
`skip(NaN)`, `limit(NaN)`, not `skip(0)`, `limit(0)`; a non-numeric string is
read as `NaN` as well. -/
theorem allJobs_window_absent :
    toNumber none = JSNumber.nan
      ∧ toNumber (some "abc") = JSNumber.nan
      ∧ (allJobs []).skip = JSNumber.nan
      ∧ (allJobs []).limit = JSNumber.nan
      ∧ (allJobs []).skip ≠ JSNumber.int 0
      ∧ (allJobs []).limit ≠ JSNumber.int 0 := by
  decide!

/-- C10, amended: a `page` or `number` parameter that is absent, or is a string
that is neither blank nor a numeric literal, is read as `NaN`; the window then
has `skip = NaN`, and `limit = NaN` when `number` is such a parameter.  An
empty or blank string is read as `0`.  A string whose first character is not
white space, a digit, a sign, the point or `I` is not numeric.  The compilation
is a total function: it does not raise. -/
theorem allJobs_window_notNumeric (q : Params) :
    (notNumeric (q.lookup "page") = true →
        toNumber (q.lookup "page") = JSNumber.nan ∧ (allJobs q).skip = JSNumber.nan)
      ∧ (notNumeric (q.lookup "number") = true →
          toNumber (q.lookup "number") = JSNumber.nan ∧ (allJobs q).skip = JSNumber.nan
            ∧ (allJobs q).limit = JSNumber.nan)
      ∧ (∀ s : String, (trimWhiteSpace s.toList).isEmpty = true →
          toNumber (some s) = JSNumber.int 0)
      ∧ (∀ (s : String) (c : Char) (rest : List Char), s.toList = c :: rest →
          isStrWhiteSpace c = false → c.isDigit = false → c ≠ '+' → c ≠ '-' → c ≠ '.' → c ≠ 'I' →
          notNumeric (some s) = true) := by
  refine ⟨?_, ?_, ?_, ?_⟩
  · intro h
    have hnan := toNumber_of_notNumeric _ h
    refine ⟨hnan, ?_⟩
    show (toNumber (q.lookup "number")).mul (toNumber (q.lookup "page")) = _
    rw [hnan, JSNumber.mul_nan]
  · intro h
    have hnan := toNumber_of_notNumeric _ h
    refine ⟨hnan, ?_, hnan⟩
    show (toNumber (q.lookup "number")).mul (toNumber (q.lookup "page")) = _
    rw [hnan, JSNumber.nan_mul]
  · intro s h
    show stringToNumber s = _
    unfold stringToNumber
    simp only [h, if_true]
  · intro s c rest hs hws hd hplus hminus hdot hI
    obtain ⟨t, ht⟩ := trimWhiteSpace_cons c rest hws
    show (!(trimWhiteSpace s.toList).isEmpty
      && (strNumericLiteral (trimWhiteSpace s.toList)).isNone) = true
    rw [hs, ht, strNumericLiteral_none_of_head c t hd hplus hminus hdot hI]
    rfl

/-- C10, amended, at `page=abc`: read as `NaN`, and the window skips `NaN`. -/
theorem allJobs_window_notNumeric_witness :
    toNumber (List.lookup "page" [("page", "abc")]) = JSNumber.nan
      ∧ (allJobs [("page", "abc")]).skip = JSNumber.nan :=
  (allJobs_window_notNumeric [("page", "abc")]).1 (by decide!)

end MarketMingle
